import Mathlib

/-!
# Formal model of the expresskit dispatch and contract-validation subsystems

Shallow embedding of `src/router.ts` (middleware wrapping, route registration,
middleware-chain assembly), `src/validator/index.ts` (request validation and
response serialization), and `src/validator/middleware.ts` (the terminal
error-classifying middleware), together with a small model of the zod schema
collaborator (object schemas with strip semantics, defaults, string/number
checks, nested objects and arrays) that the validator runs against.
-/

namespace Expresskit

/-! ## JSON-like values (the raw request/response payloads) -/

/-- A JSON-ish runtime value: the shape of parsed request bodies, params,
queries, headers and of response payloads. -/
inductive JsonVal where
  | str (s : String)
  | num (n : Int)
  | obj (fields : List (String × JsonVal))
  | arr (items : List JsonVal)

/-- The empty object literal that the validator uses for undeclared parts. -/
def emptyObj : JsonVal := JsonVal.obj []

/-- One step of a zod issue path: an object key or an array index. -/
inductive PathSeg where
  | key (s : String)
  | idx (n : Nat)
deriving Repr, DecidableEq

/-- One zod issue, as surfaced by the validator: a path into the input,
a human message and a zod issue code. -/
structure Issue where
  path : List PathSeg
  message : String
  code : String
deriving Repr, DecidableEq

/-! ## Model of the zod schema collaborator

The validator consumes zod through `safeParse`/`safeParseAsync`: parsing
either succeeds with a normalized value (unknown object keys stripped,
defaults applied, nested objects and arrays normalized recursively) or fails
with the list of all collected issues.  We model the fragment of zod the
contracts in this repository use: object schemas (strip mode), arrays,
strings with an optional minimum length, and numbers with an optional
positivity check.  Defaults attach to object fields. -/

mutual
/-- A zod schema (the fragment used by the contracts of this repository). -/
inductive Schema where
  | str (minLen : Option Nat)
  | num (positive : Bool)
  | obj (fields : SFields)
  | arr (elem : Schema)
/-- The field list of an object schema; each field may carry a default used
when the key is absent from the input. -/
inductive SFields where
  | nil
  | cons (name : String) (sch : Schema) (dflt : Option JsonVal) (rest : SFields)
end

/-- Key lookup in a JSON object (first occurrence wins, like JS objects). -/
def jlookup (name : String) : List (String × JsonVal) → Option JsonVal
  | [] => none
  | (k, v) :: rest => if k = name then some v else jlookup name rest

/-- Traverse a list of array elements with a per-index parser, collecting
all issues and the parsed elements. -/
def parseListWith (f : Nat → JsonVal → List Issue × JsonVal) :
    Nat → List JsonVal → List Issue × List JsonVal
  | _, [] => ([], [])
  | i, it :: rest =>
    let p1 := f i it
    let p2 := parseListWith f (i + 1) rest
    (p1.1 ++ p2.1, p1.2 :: p2.2)

mutual
/-- zod `safeParse`: returns all collected issues together with the
normalized value (meaningful when the issue list is empty). -/
def safeParse (s : Schema) (v : JsonVal) (path : List PathSeg) :
    List Issue × JsonVal :=
  match s with
  | .str minLen =>
    match v with
    | .str sv =>
      match minLen with
      | some m =>
        if sv.length < m then ([⟨path, "Too small", "too_small"⟩], v) else ([], v)
      | none => ([], v)
    | _ => ([⟨path, "Invalid input", "invalid_type"⟩], v)
  | .num positive =>
    match v with
    | .num n =>
      if positive ∧ n ≤ 0 then ([⟨path, "Too small", "too_small"⟩], v) else ([], v)
    | _ => ([⟨path, "Invalid input", "invalid_type"⟩], v)
  | .obj fields =>
    match v with
    | .obj kvs =>
      let p := parseFields fields kvs path
      (p.1, .obj p.2)
    | _ => ([⟨path, "Invalid input", "invalid_type"⟩], v)
  | .arr elem =>
    match v with
    | .arr items =>
      let p := parseListWith (fun i it => safeParse elem it (path ++ [.idx i])) 0 items
      (p.1, .arr p.2)
    | _ => ([⟨path, "Invalid input", "invalid_type"⟩], v)

/-- Parse the declared fields of an object schema against the input object:
unknown input keys are dropped (strip mode), absent keys take the default
of the field when one exists and are reported as issues otherwise. -/
def parseFields (fs : SFields) (kvs : List (String × JsonVal))
    (path : List PathSeg) : List Issue × List (String × JsonVal) :=
  match fs with
  | .nil => ([], [])
  | .cons name sch dflt rest =>
    match jlookup name kvs with
    | some w =>
      let p1 := safeParse sch w (path ++ [.key name])
      let p2 := parseFields rest kvs path
      (p1.1 ++ p2.1, (name, p1.2) :: p2.2)
    | none =>
      match dflt with
      | some d =>
        let p2 := parseFields rest kvs path
        (p2.1, (name, d) :: p2.2)
      | none =>
        let p2 := parseFields rest kvs path
        (⟨path ++ [.key name], "Required", "invalid_type"⟩ :: p2.1, p2.2)
end

/-! The spec-side description of what a successful `sendValidated` emits:
"a body equal to O with all fields not in S removed and any defaults from S
applied", recursively through nested objects and array elements.  This is a
second, spec-worded definition, to be compared with the value produced by
the parse of the source. -/

mutual
/-- Spec-worded normal form of a value under a schema: drop every object
field the schema does not declare, insert declared-but-absent fields from
their defaults, recurse into nested objects and arrays; leaves unchanged. -/
def specStripAndDefault (s : Schema) (v : JsonVal) : JsonVal :=
  match s with
  | .str _ => v
  | .num _ => v
  | .obj fields =>
    match v with
    | .obj kvs => .obj (specStripFields fields kvs)
    | _ => v
  | .arr elem =>
    match v with
    | .arr items => .arr (items.map (fun it => specStripAndDefault elem it))
    | _ => v

/-- Spec-worded field normalization: keep exactly the declared fields,
normalized recursively; an absent declared field is supplied from its
default when one exists and dropped otherwise. -/
def specStripFields (fs : SFields) (kvs : List (String × JsonVal)) :
    List (String × JsonVal) :=
  match fs with
  | .nil => []
  | .cons name sch dflt rest =>
    match jlookup name kvs with
    | some w => (name, specStripAndDefault sch w) :: specStripFields rest kvs
    | none =>
      match dflt with
      | some d => (name, d) :: specStripFields rest kvs
      | none => specStripFields rest kvs
end


/-! ## ContractValidator: `validate` from `src/validator/index.ts`

The exposed `req.validate` builds `shape` and `dataToValidate` from the
declared request-part schemas in the fixed order body, params, query,
headers, early-returns four empty objects when no part schema is declared,
and otherwise runs the composite `z.object(shape)` over the snapshot and
either throws a `ValidationError` or extracts the parts (substituting an
empty object for any part missing from the parsed result). -/

/-- `ValidationError` from `src/validator/errors.ts`: message, the wrapped
zod issues, and a status code defaulting to 400. -/
structure ValidationError where
  message : String
  zodError : Option (List Issue)
  statusCode : Nat := 400
deriving Repr, DecidableEq

/-- `ResponseValidationError` from `src/validator/errors.ts`: like
`ValidationError` but with status code defaulting to 500. -/
structure ResponseValidationError where
  message : String
  zodError : Option (List Issue)
  statusCode : Nat := 500
deriving Repr, DecidableEq

/-- The optional per-part request schemas declared by a route contract. -/
structure RequestSchemas where
  body : Option Schema
  params : Option Schema
  query : Option Schema
  headers : Option Schema

/-- Snapshot of the live request parts, as originally parsed. -/
structure ReqData where
  body : JsonVal
  params : JsonVal
  query : JsonVal
  headers : JsonVal

/-- The validated parts returned by `req.validate`. -/
structure ValidatedParts where
  body : JsonVal
  params : JsonVal
  query : JsonVal
  headers : JsonVal

/-- Cons a declared part onto the composite shape (a part with no declared
schema is omitted, mirroring the `if (config.request?.part)` guards). -/
def optShapeCons (name : String) (osch : Option Schema) (rest : SFields) : SFields :=
  match osch with
  | some s => SFields.cons name s none rest
  | none => rest

/-- The composite `z.object(shape)` field list, in source order
body, params, query, headers. -/
def shapeFields (cfg : RequestSchemas) : SFields :=
  optShapeCons "body" cfg.body
    (optShapeCons "params" cfg.params
      (optShapeCons "query" cfg.query
        (optShapeCons "headers" cfg.headers SFields.nil)))

/-- Cons the live data of a declared part onto `dataToValidate`. -/
def optDataCons (name : String) (osch : Option Schema) (v : JsonVal)
    (rest : List (String × JsonVal)) : List (String × JsonVal) :=
  match osch with
  | some _ => (name, v) :: rest
  | none => rest

/-- The `dataToValidate` snapshot: only the declared parts are included. -/
def dataFields (cfg : RequestSchemas) (req : ReqData) : List (String × JsonVal) :=
  optDataCons "body" cfg.body req.body
    (optDataCons "params" cfg.params req.params
      (optDataCons "query" cfg.query req.query
        (optDataCons "headers" cfg.headers req.headers [])))

/-- `Object.keys(shape).length === 0`: no request part declares a schema. -/
def shapeIsEmpty (cfg : RequestSchemas) : Bool :=
  cfg.body.isNone && cfg.params.isNone && cfg.query.isNone && cfg.headers.isNone

/-- Extract one part from the parsed composite value, substituting an empty
object when the part is absent (`if (validatedData.part !== undefined)`). -/
def partOrEmpty (parsed : JsonVal) (name : String) : JsonVal :=
  match parsed with
  | .obj kvs => (jlookup name kvs).getD emptyObj
  | _ => emptyObj

/-- `req.validate` from `src/validator/index.ts` (`withApi`): resolves with
the validated parts or throws a `ValidationError` aggregating all issues. -/
def validate (cfg : RequestSchemas) (req : ReqData) :
    Except ValidationError ValidatedParts :=
  if shapeIsEmpty cfg then
    .ok ⟨emptyObj, emptyObj, emptyObj, emptyObj⟩
  else
    let result := safeParse (.obj (shapeFields cfg)) (.obj (dataFields cfg req)) []
    if result.1 = [] then
      .ok ⟨partOrEmpty result.2 "body", partOrEmpty result.2 "params",
        partOrEmpty result.2 "query", partOrEmpty result.2 "headers"⟩
    else .error ⟨"Invalid request data", some result.1, 400⟩

/-- The automatic-validation step of the wrapped handler
(`src/validator/index.ts`, the `config.manualValidation !== true` branch):
on success it assigns all four request fields from the validated parts. -/
def autoValidateAssign (cfg : RequestSchemas) (req : ReqData) :
    Except ValidationError ReqData :=
  match validate cfg req with
  | .ok v => .ok ⟨v.body, v.params, v.query, v.headers⟩
  | .error e => .error e

/-! ## ResponseSerializer: `serialize` and `typedJson` from
`src/validator/index.ts` -/

/-- Lookup of `config.responses[statusCode]` (schema per status code). -/
def lookupResponseSchema (responses : List (Nat × Schema)) (status : Nat) :
    Option Schema :=
  match responses with
  | [] => none
  | (st, sch) :: rest =>
    if st = status then some sch else lookupResponseSchema rest status

/-- `res.serialize(statusCode, data)`: parse `data` through the status
schema of the status code; on success write the parsed (stripped/defaulted) value, on
failure throw a `ResponseValidationError`.  A missing response definition is
a crash in the source (`responseDef.schema` on `undefined`), modelled as an
error result. -/
def serialize (responses : List (Nat × Schema)) (statusCode : Nat)
    (data : JsonVal) : Except ResponseValidationError (Nat × JsonVal) :=
  match lookupResponseSchema responses statusCode with
  | none => .error ⟨"TypeError: reading schema of undefined", none, 500⟩
  | some schemaToValidate =>
    let result := safeParse schemaToValidate data []
    if result.1 = [] then .ok (statusCode, result.2)
    else .error ⟨"Invalid response data for status code", some result.1, 500⟩

/-- `res.typedJson(statusCode, data)`: writes the data as-is, with no
runtime check against any schema. -/
def typedJson (statusCode : Nat) (data : JsonVal) : Nat × JsonVal :=
  (statusCode, data)

/-! ## ErrorClassifier: `validationErrorMiddleware` from
`src/validator/middleware.ts` and the inline catch of `withApi` -/

/-- The error value flowing through the express error channel. -/
inductive AppError where
  | validation (e : ValidationError)
  | responseValidation (e : ResponseValidationError)
  | other (tag : Nat)
deriving Repr, DecidableEq

/-- The JSON body emitted for classified errors. -/
structure ErrorBody where
  error : String
  code : String
  issues : Option (List Issue)
deriving Repr, DecidableEq

/-- What an express error-handling middleware does with an error. -/
inductive ErrorMwResult where
  | send (status : Nat) (body : ErrorBody)
  | handled
  | forward (e : AppError)
deriving Repr, DecidableEq

/-- `validationErrorMiddleware` from `src/validator/middleware.ts`: the
terminal error classifier installed by `setupRoutes`.  A `ValidationError`
with headers not yet sent is answered with `sendError(400, ...)` and code
`VALIDATION_FAILED`; a `ResponseValidationError` with headers not yet sent
with `sendError(500, ...)` and code `RESPONSE_VALIDATION_FAILED` (no issue
detail in the body); anything else is passed to `next(err)`. -/
def validationErrorMiddleware (err : AppError) (headersSent : Bool) :
    ErrorMwResult :=
  match err with
  | .validation e =>
    if !headersSent then
      .send 400
        ⟨if e.message = "" then "Validation error" else e.message,
          "VALIDATION_FAILED",
          e.zodError.map (fun issues =>
            issues.map (fun i => ⟨i.path, i.message, i.code⟩))⟩
    else .handled
  | .responseValidation e =>
    if !headersSent then
      .send 500
        ⟨if e.message = "" then "Internal Server Error" else e.message,
          "RESPONSE_VALIDATION_FAILED", none⟩
    else .handled
  | e => .forward e

/-- The `ValidationError` branch of the catch in `withApi`
(`src/validator/index.ts` lines 142-155): status from the own status
code of the error (JS `error.statusCode || 400`, falsy 0 replaced by 400), body
code `VALIDATION_ERROR`, issues mapped to `{path, message, code}`. -/
def withApiValidationCatch (e : ValidationError) (headersSent : Bool) :
    Option (Nat × ErrorBody) :=
  if !headersSent then
    some (if e.statusCode = 0 then 400 else e.statusCode,
      ⟨if e.message = "" then "Validation error" else e.message,
        "VALIDATION_ERROR",
        e.zodError.map (fun issues =>
          issues.map (fun i => ⟨i.path, i.message, i.code⟩))⟩)
  else none

/-! ## The `withContract` content-type gate (spec-modelled) -/

/-- Modelled from the spec: the allowed request content types of a
contract, "the declared (or default single) allowed content types"; the
documented default is `application/json`.  The `withContract`
implementation carrying this gate is not among the sources under `src`
(only its tests, its `RouteContract.request.contentType` declaration and
its documentation are). -/
def allowedContentTypes (declared : Option (List String)) : List String :=
  declared.getD ["application/json"]

/-- Modelled from the spec: the error message observed by the content-type
tests (`Unsupported content-type. Allowed: ...`). -/
def unsupportedContentTypeMsg (allowed : List String) : String :=
  "Unsupported content-type. Allowed: " ++ String.intercalate ", " allowed

/-- Modelled from the spec: the request phase of `withContract`, whose
implementation is not among the sources under `src`.  Per the spec,
"Content-type gate: if a body schema is declared, the content-type
header of the request must match one of the declared (or default single)
allowed content types; mismatch raises ValidationError before schema
validation runs, independent of body shape"; otherwise automatic
validation proceeds as in `autoValidateAssign`. -/
def withContractRequestPhase (cfg : RequestSchemas)
    (declaredContentTypes : Option (List String)) (contentTypeHeader : String)
    (req : ReqData) : Except ValidationError ReqData :=
  if cfg.body.isSome &&
      !(allowedContentTypes declaredContentTypes).contains contentTypeHeader then
    .error ⟨unsupportedContentTypeMsg (allowedContentTypes declaredContentTypes),
      none, 400⟩
  else
    autoValidateAssign cfg req

/-! ## MiddlewareWrapper: `wrapMiddleware` from `src/router.ts`

Contexts are abstracted to identifiers.  One middleware invocation
`fn(req, res, next)` is summarized by the sequence of calls it makes to the
provided `next` callback (each with an optional error argument) followed by
its outcome: either the returned promise resolves, or the function throws /
the promise rejects with an error.  The observable behavior of the wrapper is
the resulting mutation of `req.ctx`, the calls reaching the real `next`,
and whether the wrapper itself throws. -/

/-- Request-scoped mutable state seen by the middleware wrapper. -/
structure MwState where
  reqCtx : Nat
  ended : Bool
  realNextCalls : List (Option Nat)
deriving Repr, DecidableEq

/-- Summary of one middleware invocation: the provided-`next` calls it
makes, then whether it resolves (`none`) or throws/rejects (`some e`). -/
structure MwRun where
  nextCalls : List (Option Nat)
  outcome : Option Nat
deriving Repr, DecidableEq

/-- The callback handed to the middleware (`src/router.ts` lines 33-37):
restore `req.ctx` to the captured `reqCtx`, set `ended`, and forward the
arguments to the real `next` — on every invocation. -/
def providedNext (reqCtx : Nat) (st : MwState) (arg : Option Nat) : MwState :=
  { st with
    reqCtx := reqCtx
    ended := true
    realNextCalls := st.realNextCalls ++ [arg] }

/-- `wrapMiddleware` from `src/router.ts` (lines 26-50): capture
`reqCtx := req.ctx`, run the middleware with `req.ctx` set to the fresh
child context and the wrapped `next`; a thrown/rejected error is caught and
forwarded as `next(error)`; the `finally` block restores `req.ctx` when no
provided-`next` call did.  Returns the final state and the error the
wrapper itself throws (always none). -/
def wrapMiddleware (childCtx : Nat) (fn : MwRun) (st0 : MwState) :
    MwState × Option Nat :=
  let reqCtx := st0.reqCtx
  let stIn : MwState := { st0 with reqCtx := childCtx, ended := false }
  let stFn := fn.nextCalls.foldl (providedNext reqCtx) stIn
  let stCatch :=
    match fn.outcome with
    | none => stFn
    | some e => { stFn with realNextCalls := stFn.realNextCalls ++ [some e] }
  let stFin := if stCatch.ended then stCatch else { stCatch with reqCtx := reqCtx }
  (stFin, none)

/-! ## HandlerWrapper: `wrapRouteHandler` from `src/router.ts` -/

/-- The `unnamedController` constant from `src/router.ts`. -/
def UNNAMED_CONTROLLER : String := "unnamedController"

/-- The route-info handler-name merge of `wrapRouteHandler`
(`src/router.ts` lines 58-64). -/
def mergeHandlerName (routeInfoName handlerNameLocal : String) : String :=
  if routeInfoName ≠ handlerNameLocal then
    if routeInfoName = UNNAMED_CONTROLLER then handlerNameLocal
    else routeInfoName ++ "(" ++ handlerNameLocal ++ ")"
  else routeInfoName

/-- Observable effects of one wrapped route-handler invocation. -/
structure HandlerResult where
  childParent : Nat
  childEnded : Bool
  childFailed : Bool
  nextCalls : List (Option Nat)
  finalCtx : Nat
  handlerName : String
deriving Repr, DecidableEq

/-- `wrapRouteHandler` from `src/router.ts` (lines 53-76): the child
context is created with `req.originalContext.create(...)` — from the
original context of the request, not from `req.ctx` as left by the last
middleware; a rejection is forwarded with `.catch(next)`; the `finally`
block ends `req.ctx` and restores it to the original context on every
path.  No failure is ever recorded on the context. -/
def wrapRouteHandler (originalContext reqCtxAtEntry : Nat)
    (routeInfoName handlerNameLocal : String) (outcome : Option Nat) :
    HandlerResult :=
  let _ := reqCtxAtEntry
  { childParent := originalContext,
    childEnded := true,
    childFailed := false,
    nextCalls := match outcome with | some e => [some e] | none => [],
    finalCtx := originalContext,
    handlerName := mergeHandlerName routeInfoName handlerNameLocal }

/-! ## RouteDispatcher: `setupRoutes` from `src/router.ts` -/

/-- `HTTP_METHODS` from `src/types.ts`. -/
def HTTP_METHODS : List String :=
  ["get", "head", "options", "post", "put", "patch", "delete"]

/-- `isAllowedMethod` from `src/router.ts` (lines 21-24). -/
def isAllowedMethod (method : String) : Bool :=
  HTTP_METHODS.contains method || method == "mount"

/-- First token of a route key, as produced by `routeKey.split(/\s+/)[0]`. -/
def firstToken (key : String) : String :=
  String.mk (key.data.takeWhile (fun c => !c.isWhitespace))

/-- Second token of a route key (`routeKeyParts[1]`, the route path). -/
def secondToken (key : String) : String :=
  String.mk (((key.data.dropWhile (fun c => !c.isWhitespace)).dropWhile
    (fun c => c.isWhitespace)).takeWhile (fun c => !c.isWhitespace))

/-- `String.toLowerCase` over the characters of a string. -/
def lowerString (s : String) : String :=
  String.mk (s.data.map Char.toLower)

/-- `const method = routeKeyParts[0].toLowerCase()`. -/
def routeKeyMethod (routeKey : String) : String :=
  lowerString (firstToken routeKey)

/-- The registration pass of `setupRoutes` (`src/router.ts` lines 81-88):
split each route key, lower-case the method token, and throw on the first
method that is not an allowed HTTP method nor the `mount` pseudo-method;
otherwise every entry is bound under its method and path. -/
def setupRoutes : List String → Except String (List (String × String))
  | [] => .ok []
  | routeKey :: rest =>
    let method := routeKeyMethod routeKey
    let routePath := secondToken routeKey
    if isAllowedMethod method then
      match setupRoutes rest with
      | .ok tl => .ok ((method, routePath) :: tl)
      | .error msg => .error msg
    else
      .error ("Unknown http method \x22" ++ method ++ "\x22 for route \x22" ++
        routePath ++ "\x22")

/-! ## The per-route middleware chain of `setupRoutes`
(`src/router.ts` lines 142-185) -/

/-- `AuthPolicy` from `src/types.ts`. -/
inductive AuthPolicy where
  | disabled
  | optional
  | redirect
  | required
deriving Repr, DecidableEq

/-- One stage of the per-route middleware chain, with ordinary middlewares
carried abstractly. -/
inductive RouteStage (α : Type) where
  | routeInfo
  | cache
  | csp
  | mw (m : α)
  | auth (m : α)
  | csrf
deriving Repr, DecidableEq

/-- The app-level configuration consulted while assembling the chain. -/
structure RouterConfig (α : Type) where
  appAuthPolicy : Option AuthPolicy
  appAuthHandler : Option α
  appCsrfSecret : Bool
  expressCspEnable : Bool
  expressEnableCaching : Bool
  appBeforeAuthMiddleware : List α
  appAfterAuthMiddleware : List α

/-- The route-level description consulted while assembling the chain. -/
structure RouteDesc (α : Type) where
  authPolicy : Option AuthPolicy
  authHandler : Option α
  enableCaching : Option Bool
  beforeAuth : List α
  afterAuth : List α

/-- The effective auth policy: route override, else app default, else
disabled (`routeAuthPolicy || ctx.config.appAuthPolicy ||
AuthPolicy.disabled`). -/
def effectiveAuthPolicy {α : Type} (cfg : RouterConfig α) (route : RouteDesc α) :
    AuthPolicy :=
  route.authPolicy.getD (cfg.appAuthPolicy.getD AuthPolicy.disabled)

/-- The effective caching flag: boolean route override, else
`Boolean(ctx.config.expressEnableCaching)`. -/
def effectiveEnableCaching {α : Type} (cfg : RouterConfig α)
    (route : RouteDesc α) : Bool :=
  route.enableCaching.getD cfg.expressEnableCaching

/-- The resolved auth handler (`src/router.ts` lines 171-174): none when
the effective policy is disabled, otherwise the route handler falling back
to the app handler. -/
def resolvedAuthHandler {α : Type} (cfg : RouterConfig α)
    (route : RouteDesc α) : Option α :=
  if effectiveAuthPolicy cfg route = AuthPolicy.disabled then none
  else route.authHandler.orElse (fun _ => cfg.appAuthHandler)

/-- The sequential assembly of `routeMiddleware` in `setupRoutes`
(`src/router.ts` lines 142-185), mirroring the pushes of the source:
route-info first; the caching middleware when caching is not enabled; the
CSP middleware when `expressCspEnable`; the global then route `beforeAuth`
lists; the auth handler when resolved, immediately followed by the CSRF
middleware when `appCsrfSecret` is configured; the route then global
`afterAuth` lists. -/
def buildRouteMiddleware {α : Type} (cfg : RouterConfig α)
    (route : RouteDesc α) : List (RouteStage α) :=
  let enableCaching := effectiveEnableCaching cfg route
  let l1 : List (RouteStage α) := [RouteStage.routeInfo]
  let l2 := if !enableCaching then l1 ++ [RouteStage.cache] else l1
  let l3 := if cfg.expressCspEnable then l2 ++ [RouteStage.csp] else l2
  let l4 := l3 ++ cfg.appBeforeAuthMiddleware.map RouteStage.mw
  let l5 := l4 ++ route.beforeAuth.map RouteStage.mw
  let l6 :=
    match resolvedAuthHandler cfg route with
    | some a =>
      let la := l5 ++ [RouteStage.auth a]
      if cfg.appCsrfSecret then la ++ [RouteStage.csrf] else la
    | none => l5
  let l7 := l6 ++ route.afterAuth.map RouteStage.mw
  l7 ++ cfg.appAfterAuthMiddleware.map RouteStage.mw

/-! ## Concrete contracts used by the scenario claims -/

/-- The aggregated issues of Scenario A (`POST /items` with an invalid
body): both fields fail, each issue carrying its part-prefixed path. -/
def scenarioAIssues : List Issue :=
  [⟨[PathSeg.key "body", PathSeg.key "itemName"], "Too small", "too_small"⟩,
    ⟨[PathSeg.key "body", PathSeg.key "quantity"], "Too small", "too_small"⟩]

/-- Demo response schema: required strings and nested structures plus a
defaulted field, in the shape of the serializer tests. -/
def demoSchema : Schema :=
  .obj (.cons "id" (.str none) none
    (.cons "customer" (.obj (.cons "customerId" (.str none) none .nil)) none
      (.cons "items" (.arr (.obj (.cons "n" (.num false) none .nil))) none
        (.cons "tag" (.str none) (some (.str "default-tag")) .nil))))

/-- Demo response-content map declaring `demoSchema` for status 201. -/
def demoResponses : List (Nat × Schema) := [(201, demoSchema)]

/-- Demo payload whose required fields satisfy `demoSchema` but which
carries extra fields at the top level, in a nested object and in an array
element, and omits the defaulted field. -/
def demoData : JsonVal :=
  .obj [("id", .str "x"), ("extra", .str "drop-me"),
    ("customer", .obj [("customerId", .str "c1"), ("customerEmail", .str "e")]),
    ("items", .arr [.obj [("n", .num 2), ("note", .str "extra")]])]

/-! ## Helper lemmas -/

/-- Second components of `parseListWith` form the pointwise map of the
per-element parsed values. -/
theorem parseListWith_snd (f : Nat → JsonVal → List Issue × JsonVal)
    (g : JsonVal → JsonVal) (hfg : ∀ i it, (f i it).2 = g it) (i : Nat)
    (items : List JsonVal) : (parseListWith f i items).2 = items.map g := by
  induction items generalizing i with
  | nil => rfl
  | cons it rest ih =>
    simp only [parseListWith, List.map]
    rw [hfg i it, ih (i + 1)]

mutual
/-- The value component produced by the parse of the source is exactly the
spec-worded strip-and-default normal form. -/
theorem safeParse_snd_eq_spec (s : Schema) (v : JsonVal) (path : List PathSeg) :
    (safeParse s v path).2 = specStripAndDefault s v := by
  cases s with
  | str minLen =>
    cases v <;> cases minLen <;>
      (simp only [safeParse, specStripAndDefault]
       try (split <;> rfl))
  | num positive =>
    cases v <;>
      (simp only [safeParse, specStripAndDefault]
       try (split <;> rfl))
  | obj fields =>
    cases v <;> simp only [safeParse, specStripAndDefault]
    exact congrArg JsonVal.obj (parseFields_snd_eq_spec fields _ path)
  | arr elem =>
    cases v <;> simp only [safeParse, specStripAndDefault]
    exact congrArg JsonVal.arr
      (parseListWith_snd _ (fun it => specStripAndDefault elem it)
        (fun i it => safeParse_snd_eq_spec elem it (path ++ [.idx i])) 0 _)

/-- Field-list version of `safeParse_snd_eq_spec`. -/
theorem parseFields_snd_eq_spec (fs : SFields) (kvs : List (String × JsonVal))
    (path : List PathSeg) :
    (parseFields fs kvs path).2 = specStripFields fs kvs := by
  cases fs with
  | nil => rfl
  | cons name sch dflt rest =>
    show (match jlookup name kvs with
      | some w =>
        let p1 := safeParse sch w (path ++ [PathSeg.key name])
        let p2 := parseFields rest kvs path
        (p1.1 ++ p2.1, (name, p1.2) :: p2.2)
      | none =>
        match dflt with
        | some d =>
          let p2 := parseFields rest kvs path
          (p2.1, (name, d) :: p2.2)
        | none =>
          let p2 := parseFields rest kvs path
          (⟨path ++ [PathSeg.key name], "Required", "invalid_type"⟩ :: p2.1,
            p2.2)).2 =
      match jlookup name kvs with
      | some w => (name, specStripAndDefault sch w) :: specStripFields rest kvs
      | none =>
        match dflt with
        | some d => (name, d) :: specStripFields rest kvs
        | none => specStripFields rest kvs
    cases hjl : jlookup name kvs with
    | some w =>
      dsimp only
      rw [safeParse_snd_eq_spec sch w (path ++ [PathSeg.key name]),
        parseFields_snd_eq_spec rest kvs path]
    | none =>
      cases dflt <;> dsimp only <;>
        rw [parseFields_snd_eq_spec rest kvs path]
end

/-- Folding the provided-`next` callback over a call sequence: every call
reaches the real `next`, the `ended` flag is set as soon as one call was
made, and `req.ctx` ends up restored to the captured context unless no call
was made. -/
theorem foldl_providedNext (r : Nat) (calls : List (Option Nat)) (st : MwState) :
    calls.foldl (providedNext r) st =
      ⟨if calls.isEmpty then st.reqCtx else r,
        st.ended || !calls.isEmpty,
        st.realNextCalls ++ calls⟩ := by
  induction calls generalizing st with
  | nil => simp
  | cons a rest ih =>
    simp [List.foldl_cons, ih, providedNext]

/-! ## Claim theorems -/

/-- C1 (counterexample): a middleware that invokes the provided next once
and then throws does not have the thrown error silently ignored — the
wrapper forwards it to the real next, so the real next is entered a second
time, with the error. -/
theorem c1_counterexample :
    (wrapMiddleware 1 ⟨[none], some 7⟩ ⟨0, false, []⟩).1.realNextCalls =
      [none, some 7] ∧
    ([none, some 7] : List (Option Nat)) ≠ [none] := by
  exact ⟨rfl, by decide⟩

/-- C1 (amended): the wrapper itself never throws and always leaves
`req.ctx` restored to the context captured at entry, but every invocation
of the provided next is forwarded to the real next, and an error
thrown/rejected by the middleware — before or after the first `next()`
call — is also forwarded to the real next as `next(error)` rather than
being discarded. -/
theorem c1_wrapMiddleware_forwards (childCtx : Nat) (fn : MwRun)
    (st0 : MwState) :
    (wrapMiddleware childCtx fn st0).2 = none ∧
    (wrapMiddleware childCtx fn st0).1.reqCtx = st0.reqCtx ∧
    (wrapMiddleware childCtx fn st0).1.realNextCalls =
      st0.realNextCalls ++ fn.nextCalls ++
        (match fn.outcome with | some e => [some e] | none => []) := by
  rcases fn with ⟨calls, outcome⟩
  unfold wrapMiddleware
  simp only [foldl_providedNext]
  cases outcome <;> cases calls <;> simp

/-- C2: the per-route middleware chain is exactly
route-info, caching middleware when caching is not enabled, CSP middleware
when CSP is enabled, global beforeAuth, route beforeAuth, the resolved auth
handler when present followed by the CSRF middleware when a CSRF secret is
configured, route afterAuth, global afterAuth — for every configuration. -/
theorem c2_route_middleware_order {α : Type} (cfg : RouterConfig α)
    (route : RouteDesc α) :
    buildRouteMiddleware cfg route =
      [RouteStage.routeInfo]
        ++ (if effectiveEnableCaching cfg route then [] else [RouteStage.cache])
        ++ (if cfg.expressCspEnable then [RouteStage.csp] else [])
        ++ cfg.appBeforeAuthMiddleware.map RouteStage.mw
        ++ route.beforeAuth.map RouteStage.mw
        ++ (match resolvedAuthHandler cfg route with
            | some a =>
              RouteStage.auth a ::
                (if cfg.appCsrfSecret then [RouteStage.csrf] else [])
            | none => [])
        ++ route.afterAuth.map RouteStage.mw
        ++ cfg.appAfterAuthMiddleware.map RouteStage.mw := by
  unfold buildRouteMiddleware
  cases hec : effectiveEnableCaching cfg route <;>
    cases hcsp : cfg.expressCspEnable <;>
      cases hauth : resolvedAuthHandler cfg route <;>
        cases hcsrf : cfg.appCsrfSecret <;>
          simp [List.append_assoc]

/-- C5 (counterexample): for a ValidationError carrying status hint 418 and
headers not sent, the classifier emits status 400 — not the hint — and the
stable code it emits is VALIDATION_FAILED, not VALIDATION_ERROR. -/
theorem c5_counterexample :
    validationErrorMiddleware (.validation ⟨"boom", some [], 418⟩) false =
      .send 400 ⟨"boom", "VALIDATION_FAILED", some []⟩ ∧
    (400 : Nat) ≠ 418 ∧
    "VALIDATION_FAILED" ≠ "VALIDATION_ERROR" := by
  exact ⟨rfl, by decide, by decide⟩

/-- C5 (amended): with no headers sent, a ValidationError is answered with
status 400 (always 400, the error status hint is ignored) and body
`error/code=VALIDATION_FAILED/issues`; a ResponseValidationError with
status 500 and a body without issue detail and code
RESPONSE_VALIDATION_FAILED; any other error is forwarded unchanged to
next; with headers already sent both classified errors produce no write. -/
theorem c5_error_classifier (e : ValidationError)
    (re : ResponseValidationError) (tag : Nat) (hs : Bool) :
    validationErrorMiddleware (.validation e) false =
      .send 400
        ⟨if e.message = "" then "Validation error" else e.message,
          "VALIDATION_FAILED",
          e.zodError.map (fun issues =>
            issues.map (fun i => ⟨i.path, i.message, i.code⟩))⟩ ∧
    validationErrorMiddleware (.responseValidation re) false =
      .send 500
        ⟨if re.message = "" then "Internal Server Error" else re.message,
          "RESPONSE_VALIDATION_FAILED", none⟩ ∧
    validationErrorMiddleware (.other tag) hs = .forward (.other tag) ∧
    validationErrorMiddleware (.validation e) true = .handled ∧
    validationErrorMiddleware (.responseValidation re) true = .handled := by
  exact ⟨rfl, rfl, rfl, rfl, rfl⟩

/-- C6 (counterexample): on a failing handler run the wrapper forwards the
error to next and ends the child context, but never records a failure mark
on the context — the source calls only `req.ctx.end()`, never a fail. -/
theorem c6_counterexample :
    (wrapRouteHandler 0 5 "routeName" "handlerName" (some 3)).nextCalls =
      [some 3] ∧
    (wrapRouteHandler 0 5 "routeName" "handlerName" (some 3)).childFailed =
      false := by
  exact ⟨rfl, rfl⟩

/-- C6 (amended): the wrapped handler always creates its child context from
the original (root) context — independently of the context the last
middleware left active — and on both success and failure it ends the child
context, restores `req.ctx` to the original context, and forwards a failure
to next; no failure mark is recorded on the context. -/
theorem c6_wrapRouteHandler (orig entry1 entry2 : Nat) (rn hn : String)
    (outcome : Option Nat) :
    (wrapRouteHandler orig entry1 rn hn outcome).childParent = orig ∧
    wrapRouteHandler orig entry1 rn hn outcome =
      wrapRouteHandler orig entry2 rn hn outcome ∧
    (wrapRouteHandler orig entry1 rn hn outcome).childEnded = true ∧
    (wrapRouteHandler orig entry1 rn hn outcome).finalCtx = orig ∧
    (wrapRouteHandler orig entry1 rn hn outcome).nextCalls =
      (match outcome with | some err => [some err] | none => []) := by
  exact ⟨rfl, rfl, rfl, rfl, rfl⟩

/-- C9: a route table containing any key whose method token (lower-cased)
is neither an allowed HTTP method nor `mount` makes `setupRoutes` throw at
registration time. -/
theorem c9_invalid_method_startup_error (keys : List String)
    (h : ∃ k ∈ keys, isAllowedMethod (routeKeyMethod k) = false) :
    ∃ msg, setupRoutes keys = .error msg := by
  induction keys with
  | nil =>
    rcases h with ⟨k, hk, _⟩
    cases hk
  | cons key rest ih =>
    rcases h with ⟨k, hk, hbad⟩
    rcases List.mem_cons.mp hk with rfl | hk2
    · refine ⟨"Unknown http method \x22" ++ routeKeyMethod k ++
        "\x22 for route \x22" ++ secondToken k ++ "\x22", ?_⟩
      simp [setupRoutes, hbad]
    · by_cases hall : isAllowedMethod (routeKeyMethod key)
      · rcases ih ⟨k, hk2, hbad⟩ with ⟨msg, hmsg⟩
        exact ⟨msg, by simp [setupRoutes, hall, hmsg]⟩
      · refine ⟨"Unknown http method \x22" ++ routeKeyMethod key ++
          "\x22 for route \x22" ++ secondToken key ++ "\x22", ?_⟩
        simp [setupRoutes, hall]

/-- C9 (witness): the concrete table with a `TRACE` route is rejected. -/
theorem c9_witness :
    (∃ k ∈ ["GET /users", "TRACE /teapot"],
      isAllowedMethod (routeKeyMethod k) = false) ∧
    ∃ msg, setupRoutes ["GET /users", "TRACE /teapot"] = .error msg := by
  have hbad : ∃ k ∈ ["GET /users", "TRACE /teapot"],
      isAllowedMethod (routeKeyMethod k) = false :=
    ⟨"TRACE /teapot", by decide, by decide⟩
  exact ⟨hbad, c9_invalid_method_startup_error _ hbad⟩

/-- C10: when no request part declares a schema, `validate` always resolves
to four empty objects, for every request, and its result does not depend on
the request at all (no composite schema is run). -/
theorem c10_validate_no_schemas (cfg : RequestSchemas) (req req2 : ReqData)
    (hb : cfg.body = none) (hp : cfg.params = none) (hq : cfg.query = none)
    (hh : cfg.headers = none) :
    validate cfg req = .ok ⟨emptyObj, emptyObj, emptyObj, emptyObj⟩ ∧
    validate cfg req = validate cfg req2 := by
  have hempty : shapeIsEmpty cfg = true := by
    simp [shapeIsEmpty, hb, hp, hq, hh]
  constructor <;> simp [validate, hempty]

/-- C10 (witness): the schema-free contract on a nonempty request. -/
theorem c10_witness :
    (⟨none, none, none, none⟩ : RequestSchemas).body = none ∧
    validate ⟨none, none, none, none⟩
        ⟨JsonVal.str "raw", JsonVal.obj [("id", JsonVal.str "7")],
          JsonVal.obj [("q", JsonVal.str "1")], JsonVal.obj []⟩ =
      .ok ⟨emptyObj, emptyObj, emptyObj, emptyObj⟩ := by
  refine ⟨rfl, ?_⟩
  exact (c10_validate_no_schemas ⟨none, none, none, none⟩ _
    ⟨emptyObj, emptyObj, emptyObj, emptyObj⟩ rfl rfl rfl rfl).1

/-- C3 (code bug evaluation): with only a body schema declared, a
successful automatic validation assigns all four request fields from the
validated parts, so params, query and headers — which have no declared
schema — are overwritten with empty objects instead of being left as
originally parsed. -/
theorem c3_undeclared_parts_overwritten :
    autoValidateAssign
        ⟨some (.obj (.cons "a" (.str none) none .nil)), none, none, none⟩
        ⟨JsonVal.obj [("a", JsonVal.str "x")],
          JsonVal.obj [("id", JsonVal.str "7")],
          JsonVal.obj [("q", JsonVal.str "1")],
          JsonVal.obj [("h", JsonVal.str "v")]⟩ =
      .ok ⟨JsonVal.obj [("a", JsonVal.str "x")], emptyObj, emptyObj,
        emptyObj⟩ ∧
    emptyObj ≠ JsonVal.obj [("q", JsonVal.str "1")] := by
  refine ⟨rfl, ?_⟩
  intro h
  injection h with hf
  simp at hf

/-- C4: whenever the contract declares a schema for the status code and the
payload parses against it, `serialize` (the spec sendValidated) writes the
parsed value — equal to the payload with all fields outside the schema
removed and schema defaults applied, recursively — while `typedJson` (the
spec sendTyped) writes the payload unchanged with no runtime check. -/
theorem c4_serialize_strips_typedJson_unchanged
    (responses : List (Nat × Schema)) (status : Nat) (S : Schema)
    (data : JsonVal) (hlook : lookupResponseSchema responses status = some S)
    (hok : (safeParse S data []).1 = []) :
    serialize responses status data =
      .ok (status, specStripAndDefault S data) ∧
    typedJson status data = (status, data) := by
  constructor
  · unfold serialize
    rw [hlook]
    simp [hok, safeParse_snd_eq_spec]
  · rfl

/-- C4 (witness): the demo payload with nested extra fields is written with
the extras stripped and the default applied, and is not written as the
original object; `typedJson` writes it unchanged. -/
theorem c4_witness :
    lookupResponseSchema demoResponses 201 = some demoSchema ∧
    (safeParse demoSchema demoData []).1 = [] ∧
    serialize demoResponses 201 demoData =
      .ok (201, JsonVal.obj [("id", JsonVal.str "x"),
        ("customer", JsonVal.obj [("customerId", JsonVal.str "c1")]),
        ("items", JsonVal.arr [JsonVal.obj [("n", JsonVal.num 2)]]),
        ("tag", JsonVal.str "default-tag")]) ∧
    specStripAndDefault demoSchema demoData ≠ demoData ∧
    typedJson 201 demoData = (201, demoData) := by
  have h := c4_serialize_strips_typedJson_unchanged demoResponses 201
    demoSchema demoData rfl rfl
  refine ⟨rfl, rfl, h.1, ?_, h.2⟩
  intro heq
  injection heq with hfields
  injection hfields with h1 hrest
  injection hrest with h2 _
  injection h2 with hname _
  exact absurd hname (by decide)

/-- C7 (Scenario A): the invalid item body fails validation with one
aggregated ValidationError of status 400 whose issues carry both
part-prefixed paths, and the withApi catch answers it with a 400 response
carrying those issues. -/
theorem c7_scenario_a :
    validate
        ⟨some (.obj (.cons "itemName" (.str (some 3)) none
          (.cons "quantity" (.num true) none .nil))), none, none, none⟩
        ⟨JsonVal.obj [("itemName", JsonVal.str "ab"),
          ("quantity", JsonVal.num (-1))], emptyObj, emptyObj, emptyObj⟩ =
      .error ⟨"Invalid request data", some scenarioAIssues, 400⟩ ∧
    [PathSeg.key "body", PathSeg.key "itemName"] ∈
      scenarioAIssues.map Issue.path ∧
    [PathSeg.key "body", PathSeg.key "quantity"] ∈
      scenarioAIssues.map Issue.path ∧
    withApiValidationCatch ⟨"Invalid request data", some scenarioAIssues, 400⟩
        false =
      some (400, ⟨"Invalid request data", "VALIDATION_ERROR",
        some scenarioAIssues⟩) := by
  exact ⟨rfl, by decide, by decide, rfl⟩

/-- C8 (spec-modelled): with a declared body schema and a content-type
header matching none of the allowed content types, the request phase fails
with the content-type ValidationError (status 400), and the outcome does
not depend on the request body at all — the gate fires before schema
validation. -/
theorem c8_content_type_gate (cfg : RequestSchemas)
    (declared : Option (List String)) (header : String) (req : ReqData)
    (hbody : cfg.body.isSome = true)
    (hct : (allowedContentTypes declared).contains header = false) :
    withContractRequestPhase cfg declared header req =
      .error ⟨unsupportedContentTypeMsg (allowedContentTypes declared),
        none, 400⟩ ∧
    ∀ b : JsonVal,
      withContractRequestPhase cfg declared header
          ⟨b, req.params, req.query, req.headers⟩ =
        withContractRequestPhase cfg declared header req := by
  have hmem : header ∉ allowedContentTypes declared := by
    simpa using hct
  constructor
  · simp [withContractRequestPhase, hbody, hmem]
  · intro b
    simp [withContractRequestPhase, hbody, hmem]

/-- C8 (witness): the concrete contract of the content-type test — allowed
`application/x-www-form-urlencoded`, request sent as `application/json`. -/
theorem c8_witness :
    (⟨some (.obj .nil), none, none, none⟩ : RequestSchemas).body.isSome =
      true ∧
    (allowedContentTypes
      (some ["application/x-www-form-urlencoded"])).contains
        "application/json" = false ∧
    withContractRequestPhase ⟨some (.obj .nil), none, none, none⟩
        (some ["application/x-www-form-urlencoded"]) "application/json"
        ⟨emptyObj, emptyObj, emptyObj, emptyObj⟩ =
      .error ⟨unsupportedContentTypeMsg
        (allowedContentTypes (some ["application/x-www-form-urlencoded"])),
        none, 400⟩ := by
  refine ⟨rfl, by decide, ?_⟩
  exact (c8_content_type_gate ⟨some (.obj .nil), none, none, none⟩
    (some ["application/x-www-form-urlencoded"]) "application/json"
    ⟨emptyObj, emptyObj, emptyObj, emptyObj⟩ rfl (by decide)).1

end Expresskit
